import Mathlib

/-!
Verification of the mindley job/step state machine and notification pipeline.

Shallow embedding of:
 * the `update-job-step` edge function (step timestamp handling and the
   auto-finalization block that derives the parent job's status),
 * the `create-job` edge function (validation, inserts, compensating delete),
 * the frontend `use-job-notifications` hook (`handleEvent`: job-update
   dedup, step-event guards, next-step inference, step-toast dedup),
 * the `use-reliable-realtime` hook (reconnect backoff, generation guards,
   subscription status callback).

Machine timestamps are modelled as `Nat` instants; `undefined`/`null` values
from the TypeScript source are modelled as `Option`; JavaScript falsiness of
strings ("" is falsy) and numbers (0 is falsy) is modelled explicitly where
the source relies on it.
-/

/-- Job status enum, matching the DB enum job_status. -/
inductive JobStatus
  | pending
  | running
  | completed
  | failed
  | cancelled
  deriving DecidableEq, Repr

/-- Step status enum, matching the DB enum job_step_status. -/
inductive StepStatus
  | pending
  | running
  | completed
  | failed
  | skipped
  deriving DecidableEq, Repr

/-- String form of a step status, as it appears in JS string comparisons
and in the dedup key template literal. -/
def stepStatusStr : StepStatus → String
  | .pending => "pending"
  | .running => "running"
  | .completed => "completed"
  | .failed => "failed"
  | .skipped => "skipped"

/-- JavaScript falsiness of an optional string value: `undefined` and the
empty string are falsy (`!error_message`). -/
def strFalsy : Option String → Bool
  | none => true
  | some s => s = ""

/-! ### update-job-step: step row update (index.ts lines 201-216) -/

/-- The mutable columns of a `job_steps` row that the claims are about. -/
structure StepRow where
  status : StepStatus
  started_at : Option Nat
  completed_at : Option Nat
  deriving DecidableEq, Repr

/-- Effect of the `updateData` payload built by update-job-step on the
matched step row.  Source:

    if (status === 'running' && !error_message) {
      updateData.started_at = new Date().toISOString()
    } else if (status === 'completed' || status === 'failed' || status === 'skipped') {
      const nowIso = new Date().toISOString()
      updateData.completed_at = nowIso
      updateData.started_at = updateData.started_at || nowIso
    }

In the terminal branch `updateData.started_at` is still `undefined` (the
branches are exclusive), so `updateData.started_at || nowIso` always
evaluates to `nowIso`.  Columns absent from the payload keep their stored
value. -/
def applyStepUpdate (step : StepRow) (status : StepStatus) (error_message : Option String)
    (now : Nat) : StepRow :=
  if status = .running ∧ strFalsy error_message = true then
    { step with status := status, started_at := some now }
  else if status = .completed ∨ status = .failed ∨ status = .skipped then
    { step with status := status, started_at := some now, completed_at := some now }
  else
    { step with status := status }

/-! ### update-job-step: auto-finalization of the parent job (lines 256-299) -/

/-- `['completed', 'failed', 'skipped'].includes(s.status)` — a step status
counted as terminal by the auto-finalization block. -/
def stepIsTerminal (s : StepStatus) : Bool :=
  s = .completed ∨ s = .failed ∨ s = .skipped

/-- `['running', 'completed', 'failed', 'skipped'].includes(s.status)` — a
step status counted as progress by the auto-finalization block. -/
def stepIsProgress (s : StepStatus) : Bool :=
  s = .running ∨ s = .completed ∨ s = .failed ∨ s = .skipped

/-- The `newStatus` decision of the auto-finalization block.  `none` means
the job status is left unchanged.  Source:

    let newStatus: string | undefined
    if (jobWithSteps.status !== 'failed' && jobWithSteps.status !== 'completed') {
      if (anyFailed) newStatus = 'failed'
      else if (allTerminal) newStatus = 'completed'
      else if (jobWithSteps.status === 'pending' && anyProgress) newStatus = 'running'
    }
-/
def deriveNewStatus (jobStatus : JobStatus) (steps : List StepStatus) : Option JobStatus :=
  if jobStatus ≠ .failed ∧ jobStatus ≠ .completed then
    if steps.any (fun s => s = .failed) then some .failed
    else if steps.all stepIsTerminal then some .completed
    else if jobStatus = .pending ∧ steps.any stepIsProgress then some .running
    else none
  else none

/-- The mutable columns of a `jobs` row that the claims are about. -/
structure JobRow where
  status : JobStatus
  started_at : Option Nat
  completed_at : Option Nat
  deriving DecidableEq, Repr

/-- Effect of the auto-finalization block on the job row: when a new status
is decided, `started_at` is filled if it was still null and `completed_at`
is set when the new status is failed or completed (lines 275-289). -/
def applyAutoFinalize (job : JobRow) (steps : List StepStatus) (now : Nat) : JobRow :=
  match deriveNewStatus job.status steps with
  | none => job
  | some ns =>
    { status := ns
      started_at := if job.started_at = none then some now else job.started_at
      completed_at :=
        if ns = .failed ∨ ns = .completed then some now else job.completed_at }

/-! ### Spec-side definitions (written from the specification's words) -/

/-- Terminal job status as the specification's data-model section defines
it: completed, failed or cancelled. -/
def jobTerminalSpec (j : JobStatus) : Bool :=
  j = .completed ∨ j = .failed ∨ j = .cancelled

/-- The status-derivation rule exactly as the spec words it:
`deriveJobStatus(currentStatus, S)` returns failed if any step in S is
failed; else completed if all are in completed/failed/skipped; else running
if the current status is pending and any step is in
running/completed/failed/skipped; else unchanged. -/
def specDeriveJobStatus (cur : JobStatus) (S : List StepStatus) : Option JobStatus :=
  if ∃ s ∈ S, s = StepStatus.failed then some .failed
  else if ∀ s ∈ S, s = StepStatus.completed ∨ s = StepStatus.failed ∨ s = StepStatus.skipped then
    some .completed
  else if cur = .pending ∧ ∃ s ∈ S, s = StepStatus.running ∨ s = StepStatus.completed ∨
      s = StepStatus.failed ∨ s = StepStatus.skipped then
    some .running
  else none

/-! ### Frontend job/step records (use-job-notifications.tsx) -/

/-- The fields of a frontend `JobStep` record that `handleEvent` reads.
`meta_reference_id` / `meta_reference_title` model
`step.metadata?.reference_id` / `step.metadata?.reference_title`. -/
structure JobStep where
  id : String
  job_id : String
  step_name : String
  step_order : Int
  status : StepStatus
  meta_reference_id : Option Nat
  meta_reference_title : Option String
  deriving DecidableEq, Repr

/-- A job together with its steps, as returned by
`JobService.getJobWithSteps`. -/
structure JobWithSteps where
  id : String
  user_id : String
  status : JobStatus
  workflow_name : String
  steps : List JobStep
  deriving DecidableEq, Repr

/-! ### Next-step inference (use-job-notifications.tsx lines 669-710) -/

/-- Head of the list stably sorted by ascending `step_order`:
`arr.sort((a, b) => a.step_order - b.step_order)[0]`.  JavaScript's sort is
stable, so the result is the first element attaining the minimal order. -/
def minByOrder : List JobStep → Option JobStep
  | [] => none
  | s :: rest =>
    match minByOrder rest with
    | none => some s
    | some m => if m.step_order < s.step_order then some m else some s

/-- `maxCompletedOrder`: the largest `step_order` among steps whose status
is completed or skipped, and 0 when there are none.  Source:

    const completedStepsArray = stepsArr.filter(s => ['completed','skipped'].includes(s.status))
    const maxCompletedOrder = completedStepsArray.length > 0
      ? Math.max(...completedStepsArray.map(s => s.step_order)) : 0
-/
def maxCompletedOrder (steps : List JobStep) : Int :=
  match (steps.filter fun s => s.status = .completed ∨ s.status = .skipped).map
      (fun s => s.step_order) with
  | [] => 0
  | o :: os => os.foldl max o

/-- The "smart next step" inference of `handleEvent`: prefer the running
step with the lowest order; else the pending step with the lowest order
strictly above `maxCompletedOrder`; else the lowest-order running-or-pending
step. -/
def nextStep (steps : List JobStep) : Option JobStep :=
  match minByOrder (steps.filter fun s => s.status = .running) with
  | some s => some s
  | none =>
    match minByOrder (steps.filter fun s =>
        s.status = .pending ∧ maxCompletedOrder steps < s.step_order) with
    | some s => some s
    | none => minByOrder (steps.filter fun s => s.status = .running ∨ s.status = .pending)

/-- The next-step rule exactly as the claim words it: the threshold for
pending steps is the maximum `step_order` among steps already in a terminal
state, with terminal for steps meaning completed, failed or skipped. -/
def maxTerminalOrderClaimed (steps : List JobStep) : Int :=
  match (steps.filter fun s =>
      s.status = .completed ∨ s.status = .failed ∨ s.status = .skipped).map
      (fun s => s.step_order) with
  | [] => 0
  | o :: os => os.foldl max o

/-- Next-step rule with the claim's terminal-based threshold. -/
def nextStepClaimed (steps : List JobStep) : Option JobStep :=
  match minByOrder (steps.filter fun s => s.status = .running) with
  | some s => some s
  | none =>
    match minByOrder (steps.filter fun s =>
        s.status = .pending ∧ maxTerminalOrderClaimed steps < s.step_order) with
    | some s => some s
    | none => minByOrder (steps.filter fun s => s.status = .running ∨ s.status = .pending)

/-! ### Notification dedup state and the jobs UPDATE branch (lines 629-645) -/

/-- Session-lifetime dedup state: `lastStatusNotifiedRef` (a job-id keyed
map of the last notified job status) and `lastStepNotifiedRef` (the set of
step transition keys already notified). -/
structure NotifState where
  lastStatusNotified : List (String × JobStatus)
  lastStepNotified : List String
  deriving DecidableEq, Repr

/-- Lookup in the last-notified-status map (`lastStatusNotifiedRef.current[job.id]`). -/
def lastStatusOf (st : NotifState) (jobId : String) : Option JobStatus :=
  (st.lastStatusNotified.find? fun p => p.1 = jobId).map (fun p => p.2)

/-- Assignment `lastStatusNotifiedRef.current[job.id] = job.status`. -/
def setLastStatus (st : NotifState) (jobId : String) (s : JobStatus) : NotifState :=
  { st with lastStatusNotified := (jobId, s) :: st.lastStatusNotified }

/-- The jobs UPDATE branch of `handleEvent`.  Returns the updated dedup
state and whether a job-failed toast was emitted.  Source:

    const alreadyNotifiedStatus = lastStatusNotifiedRef.current[job.id] === job.status;
    const statusActuallyChanged = oldJob?.status !== job.status;
    if (!alreadyNotifiedStatus || statusActuallyChanged) {
      if (job.status === "failed") { showNotification({ type: "job_failed", ... }); }
      lastStatusNotifiedRef.current[job.id] = job.status;
    }
-/
def handleJobUpdate (st : NotifState) (jobId : String) (status : JobStatus)
    (oldStatus : Option JobStatus) : NotifState × Bool :=
  let alreadyNotifiedStatus := lastStatusOf st jobId = some status
  let statusActuallyChanged := oldStatus ≠ some status
  if ¬alreadyNotifiedStatus ∨ statusActuallyChanged then
    (setLastStatus st jobId status, status = .failed)
  else (st, false)

/-! ### The job_steps branch of handleEvent (lines 646-823) -/

/-- Does the first character list start with the second one? -/
def charsStartWith : List Char → List Char → Bool
  | _, [] => true
  | [], _ :: _ => false
  | a :: as, b :: bs => a = b && charsStartWith as bs

/-- Does the first character list contain the second as a contiguous run? -/
def charsContain : List Char → List Char → Bool
  | [], needle => needle.isEmpty
  | a :: as, needle => charsStartWith (a :: as) needle || charsContain as needle

/-- `hay.includes(needle)` on strings. -/
def strIncl (hay needle : String) : Bool :=
  charsContain hay.toList needle.toList

/-- A toast that `showNotification` would render for a step event: its
description and the `customVariant` override, if any. -/
structure ToastCall where
  message : String
  variant : Option String
  deriving DecidableEq, Repr

/-- The `${step.job_id}:${step.id}:${step.status}` dedup key. -/
def stepKey (s : JobStep) : String :=
  s.job_id ++ ":" ++ s.id ++ ":" ++ stepStatusStr s.status

/-- Everything the job_steps branch of `handleEvent` decides before touching
the dedup set: `none` when one of the guards bails out (status unchanged,
uninteresting status, wrong event type, fetch failed, job not owned, job
already failed, or `shouldShowToast` false), `some toastOpt` when the branch
reaches the dedup check, where `toastOpt` is the toast it would show
(`none` inside when the final-completion suppression applies, which still
records the dedup key).  `fetched` is the result of
`JobService.getJobWithSteps(step.job_id)`; a thrown fetch error behaves
like a missing job (the catch block only logs). -/
def stepToastPlan (userId : String) (evType : Option String) (step : JobStep)
    (oldStatus : Option StepStatus) (fetched : Option JobWithSteps) :
    Option (Option ToastCall) :=
  let statusChanged := oldStatus ≠ some step.status
  let isInteresting := step.status = .running ∨ step.status = .completed ∨ step.status = .failed
  if statusChanged ∧ isInteresting ∧ (evType = some "UPDATE" ∨ evType = none) then
    match fetched with
    | none => none
    | some jws =>
      if jws.user_id = userId then
        if jws.status = .failed then none
        else
          let stepsArr := jws.steps
          let total := stepsArr.length
          let completedSteps :=
            (stepsArr.filter fun s => s.status = .completed ∨ s.status = .skipped).length
          let nextS := nextStep stepsArr
          let isLastStepJustCompleted := step.status = .completed ∧ completedSteps = total
          let isSameUserDuplicate :=
            step.step_name = "Handle Duplicates: Same User" ∧ step.status = .completed
          let isDifferentUserDuplicate :=
            step.step_name = "Handle Duplicates: Different User" ∧ step.status = .completed
          let isDifferentUserFailed :=
            strIncl step.step_name "Different User" = true ∧ step.status = .failed
          -- description / shouldShowToast / customVariant decision chain;
          -- the same-user-duplicate redirect and the completion reload are
          -- browser side effects outside this model
          let d : String × Bool × Option String :=
            if step.status = .running then ("Running...", true, none)
            else if step.status = .failed then
              if isDifferentUserFailed then
                ("Failed to process resource", true, some "destructive")
              else ("Failed.", true, none)
            else if isSameUserDuplicate then
              match step.meta_reference_id, step.meta_reference_title with
              | some rid, some title =>
                -- `if (resourceId && resourceTitle)`: both JS-truthy
                if rid ≠ 0 ∧ title ≠ "" then
                  ("Resource already in your collection: " ++ title, true, some "primary")
                else ("Resource already in your collection", true, some "primary")
              | _, _ => ("Resource already in your collection", true, some "primary")
            else if isDifferentUserDuplicate then ("", false, none)
            else if step.status = .completed then
              if isLastStepJustCompleted then
                ("Resource successfully added to your collection", true, some "success")
              else
                match nextS with
                | some ns => ("Currently running step: " ++ ns.step_name, true, none)
                | none => ("", true, none)
            else ("", true, none)
          if d.2.1 then
            some (if isLastStepJustCompleted ∧ step.status = .completed ∧
                ¬isSameUserDuplicate ∧ ¬isDifferentUserDuplicate then none
              else some ⟨d.1, d.2.2⟩)
          else none
      else none
  else none

/-- The job_steps branch of `handleEvent`: consult/update the
`lastStepNotifiedRef` dedup set and emit the planned toast at most once per
`stepKey`. -/
def handleStepEvent (st : NotifState) (userId : String) (evType : Option String)
    (step : JobStep) (oldStatus : Option StepStatus) (fetched : Option JobWithSteps) :
    NotifState × Option ToastCall :=
  match stepToastPlan userId evType step oldStatus fetched with
  | none => (st, none)
  | some toastOpt =>
    if stepKey step ∈ st.lastStepNotified then (st, none)
    else ({ st with lastStepNotified := stepKey step :: st.lastStepNotified }, toastOpt)

/-! ### create-job edge function -/

/-- A step definition supplied in the create-job request body. -/
structure StepDef where
  step_name : String
  step_type : String
  step_order : Int
  deriving DecidableEq, Repr

/-- The request fields create-job validates and inserts; `none` models an
absent field. -/
structure CreateJobRequest where
  workflow_name : Option String
  steps : Option (List StepDef)
  deriving DecidableEq, Repr

/-- A row of the `jobs` table as create-job inserts it. -/
structure JobInsertRow where
  id : Nat
  user_id : String
  workflow_name : String
  status : JobStatus
  deriving DecidableEq, Repr

/-- A row of the `job_steps` table as create-job inserts it. -/
structure StepInsertRow where
  job_id : Nat
  step_name : String
  step_type : String
  step_order : Int
  status : StepStatus
  deriving DecidableEq, Repr

/-- The two tables create-job writes. -/
structure Db where
  jobs : List JobInsertRow
  job_steps : List StepInsertRow
  deriving DecidableEq, Repr

/-- `!workflow_name`: absent or empty string is falsy. -/
def wfNameFalsy : Option String → Bool
  | none => true
  | some s => s = ""

/-- `!steps || steps.length === 0`: absent or empty list. -/
def stepsFalsy : Option (List StepDef) → Bool
  | none => true
  | some l => l.isEmpty

/-- The `job_steps` row built from one step definition
(`steps.map(step => ({ job_id: job.id, ..., status: 'pending' }))`). -/
def stepRowOf (jobId : Nat) (s : StepDef) : StepInsertRow :=
  { job_id := jobId, step_name := s.step_name, step_type := s.step_type
    step_order := s.step_order, status := .pending }

/-- The create-job handler after authentication (part_000 lines 146-228).
`newJobId` is the id the storage layer would assign to the inserted job;
`jobInsertOk` / `stepsInsertOk` inject storage write failures.  Returns the
final table state and the HTTP status code. -/
def createJob (db : Db) (userId : String) (req : CreateJobRequest) (newJobId : Nat)
    (jobInsertOk stepsInsertOk : Bool) : Db × Nat :=
  if wfNameFalsy req.workflow_name || stepsFalsy req.steps then (db, 400)
  else
    -- workflow_name and steps are present (and non-falsy) past the guard
    let wf := req.workflow_name.getD ""
    let steps := req.steps.getD []
    if jobInsertOk = false then (db, 500)
    else
      let db1 : Db :=
        { db with jobs := db.jobs ++ [⟨newJobId, userId, wf, .pending⟩] }
      if stepsInsertOk = false then
        -- compensating cleanup: await supabase.from('jobs').delete().eq('id', job.id)
        ({ db1 with jobs := db1.jobs.filter fun j => j.id ≠ newJobId }, 500)
      else
        ({ db1 with job_steps := db1.job_steps ++ steps.map (stepRowOf newJobId) }, 200)

/-! ### use-reliable-realtime (part_006) -/

/-- The hook's connection mode. -/
inductive ConnectionMode
  | connected
  | polling
  | error
  | initializing
  deriving DecidableEq, Repr

/-- Subscription status values delivered to the `.subscribe` callback. -/
inductive SubStatus
  | SUBSCRIBED
  | TIMED_OUT
  | CHANNEL_ERROR
  | CLOSED
  deriving DecidableEq, Repr

/-- The visible state of `useReliableRealtime` plus the refs the callbacks
read: the liveness flag, the subscription generation, and whether the poll
interval timer is active. -/
structure RtState where
  isMounted : Bool
  generation : Nat
  mode : ConnectionMode
  error : Option String
  failures : Nat
  lastActivityAt : Option Nat
  pollTimerActive : Bool
  deriving DecidableEq, Repr

/-- `subscribeRealtime` increments the generation counter
(`generationRef.current += 1`); callbacks registered by that call capture
the incremented value. -/
def bumpGeneration (st : RtState) : RtState :=
  { st with generation := st.generation + 1 }

/-- The postgres_changes event callback registered by `subscribeRealtime`,
tagged with its captured generation.  Returns the new state and whether the
consumer's `onEvent` was invoked.  Source (lines 128-134):

    if (!isMountedRef.current) return;
    if (generationRef.current !== currentGeneration) return;
    setLastActivityAt(Date.now());
    onEvent({ source: source.key, payload, isSynthetic: false });
-/
def channelEventCallback (captured : Nat) (st : RtState) (now : Nat) : RtState × Bool :=
  if st.isMounted = false then (st, false)
  else if st.generation ≠ captured then (st, false)
  else ({ st with lastActivityAt := some now }, true)

/-- The `.subscribe((status, err) => ...)` callback (lines 135-170), tagged
with its captured generation.  `subscribedCount` and `aborted` are the
locals of the enclosing `subscribeRealtime` call; the function returns the
updated state and the updated locals.  `startPolling` / `stopPolling` are
reflected in `pollTimerActive`. -/
def channelStatusCallback (captured : Nat) (st : RtState) (sourcesCount : Nat)
    (subscribedCount : Nat) (aborted : Bool) (err : Option String) (status : SubStatus) :
    RtState × Nat × Bool :=
  if st.isMounted = false then (st, subscribedCount, aborted)
  else if st.generation ≠ captured then (st, subscribedCount, aborted)
  else
    match err with
    | some msg =>
      ({ st with error := some (if msg = "" then "Channel error" else msg)
                 failures := st.failures + 1
                 mode := .polling
                 pollTimerActive := true },
       subscribedCount, true)
    | none =>
      match status with
      | .SUBSCRIBED =>
        let sc := subscribedCount + 1
        if sc = sourcesCount ∧ aborted = false then
          ({ st with mode := .connected, error := none, failures := 0
                     pollTimerActive := false },
           sc, aborted)
        else (st, sc, aborted)
      | .TIMED_OUT | .CHANNEL_ERROR =>
        if st.mode ≠ .polling then
          ({ st with mode := .polling, pollTimerActive := true }, subscribedCount, aborted)
        else (st, subscribedCount, aborted)
      | .CLOSED =>
        if st.mode = .connected then
          if st.mode ≠ .polling then
            ({ st with mode := .polling, pollTimerActive := true }, subscribedCount, aborted)
          else (st, subscribedCount, aborted)
        else (st, subscribedCount, aborted)

/-- The reconnect delay computed by `scheduleReconnect` (lines 176-187):

    Math.min(30000, 1000 * Math.pow(2, Math.max(0, failures - maxFailuresBeforeBackoff)))

`Math.max(0, a - b)` is truncated subtraction on naturals.  The hook's
default `maxFailuresBeforeBackoff` is 3. -/
def backoffMs (failures maxFailuresBeforeBackoff : Nat) : Nat :=
  min 30000 (1000 * 2 ^ (failures - maxFailuresBeforeBackoff))

/-- The backoff schedule exactly as the claim words it: base 1000ms at the
first failure, doubling on each successive failure, capped at 30000ms. -/
def claimedBackoffMs (failures : Nat) : Nat :=
  min 30000 (1000 * 2 ^ (failures - 1))

/-! ## Claims -/

/-- C1: for every job whose current status is not already terminal
(terminal for jobs meaning completed, failed or cancelled), the
auto-finalization run after a step update decides the job's new status
exactly as the spec's `deriveJobStatus` rule: failed if any step failed,
else completed if every step is completed/failed/skipped, else running if
the current status is pending and any step shows progress, else unchanged. -/
theorem c1_derive_status_matches_spec (cur : JobStatus) (S : List StepStatus)
    (h : jobTerminalSpec cur = false) :
    deriveNewStatus cur S = specDeriveJobStatus cur S := by
  cases cur <;> simp [jobTerminalSpec] at h <;>
    simp [deriveNewStatus, specDeriveJobStatus, stepIsTerminal, stepIsProgress,
      List.any_eq_true, List.all_eq_true]

/-- Witness for C1 at a concrete non-terminal job. -/
theorem c1_witness :
    jobTerminalSpec JobStatus.pending = false ∧
    deriveNewStatus JobStatus.pending [StepStatus.running] =
      specDeriveJobStatus JobStatus.pending [StepStatus.running] :=
  ⟨by decide, c1_derive_status_matches_spec JobStatus.pending [StepStatus.running] (by decide)⟩

/-- C2 counterexample: a cancelled job is terminal by the spec's definition,
yet a step update whose refetched steps contain a failed step moves its
status to failed — the stickiness guard only checks failed and completed. -/
theorem c2_counterexample :
    (applyAutoFinalize ⟨JobStatus.cancelled, some 1, some 2⟩ [StepStatus.failed] 9).status =
      JobStatus.failed := by decide

/-- C2 (amended): once a job's status is completed or failed no subsequent
step update changes the job row at all; a cancelled job is not protected —
auto-finalization still decides failed when some step failed and completed
when every step is terminal — but it can never decide running for it, since
the running branch requires current status pending. -/
theorem c2_terminal_stickiness :
    (∀ (job : JobRow) (steps : List StepStatus) (now : Nat),
      job.status = JobStatus.completed ∨ job.status = JobStatus.failed →
      applyAutoFinalize job steps now = job) ∧
    (∀ S : List StepStatus,
      deriveNewStatus JobStatus.cancelled S =
        (if S.any (fun s => s = StepStatus.failed) then some JobStatus.failed
         else if S.all stepIsTerminal then some JobStatus.completed
         else none)) ∧
    (∀ S : List StepStatus,
      deriveNewStatus JobStatus.cancelled S ≠ some JobStatus.running) := by
  refine ⟨?_, ?_, ?_⟩
  · intro job steps now h
    rcases h with h | h <;> simp [applyAutoFinalize, deriveNewStatus, h]
  · intro S
    simp [deriveNewStatus]
  · intro S
    simp [deriveNewStatus]
    split <;> simp

/-- Witness for the amended C2 at a concrete completed job and a concrete
cancelled job. -/
theorem c2_witness :
    applyAutoFinalize ⟨JobStatus.completed, some 1, some 2⟩ [StepStatus.failed] 3 =
      ⟨JobStatus.completed, some 1, some 2⟩ ∧
    deriveNewStatus JobStatus.cancelled [StepStatus.pending] = none ∧
    deriveNewStatus JobStatus.cancelled [StepStatus.pending] ≠ some JobStatus.running :=
  ⟨c2_terminal_stickiness.1 _ _ _ (Or.inl rfl),
   c2_terminal_stickiness.2.1 [StepStatus.pending],
   c2_terminal_stickiness.2.2 [StepStatus.pending]⟩

/-- C5 counterexample: an update to running that carries an error_message
leaves started_at unwritten, so a step that has left pending can still have
a null started_at, contrary to the claim's blanket started_at clause. -/
theorem c5_counterexample :
    (applyStepUpdate ⟨StepStatus.pending, none, none⟩ StepStatus.running (some "boom") 7).status =
      StepStatus.running ∧
    (applyStepUpdate ⟨StepStatus.pending, none, none⟩ StepStatus.running (some "boom") 7).started_at =
      none := by decide

/-- C5 (amended): a step's completed_at is written exactly when the new
status is terminal; its started_at is written on terminal updates and on
running updates without an error_message (a running update carrying an
error_message leaves it unwritten); the job's started_at is populated when
a new status is decided and it was still null (even when jumping straight
to a terminal status), and the job's completed_at is written exactly when
the new decided status is failed or completed. -/
theorem c5_timestamp_discipline :
    (∀ (step : StepRow) (status : StepStatus) (em : Option String) (now : Nat),
      (applyStepUpdate step status em now).completed_at =
        (if status = StepStatus.completed ∨ status = StepStatus.failed ∨
            status = StepStatus.skipped then some now else step.completed_at) ∧
      (applyStepUpdate step status em now).started_at =
        (if (status = StepStatus.running ∧ strFalsy em = true) ∨ status = StepStatus.completed ∨
            status = StepStatus.failed ∨ status = StepStatus.skipped then some now
         else step.started_at)) ∧
    (∀ (job : JobRow) (steps : List StepStatus) (now : Nat),
      (applyAutoFinalize job steps now).started_at =
        (if deriveNewStatus job.status steps ≠ none ∧ job.started_at = none then some now
         else job.started_at) ∧
      (applyAutoFinalize job steps now).completed_at =
        (if deriveNewStatus job.status steps = some JobStatus.failed ∨
            deriveNewStatus job.status steps = some JobStatus.completed then some now
         else job.completed_at)) := by
  constructor
  · intro step status em now
    by_cases hf : strFalsy em = true <;> cases status <;> simp [applyStepUpdate, hf]
  · intro job steps now
    cases h : deriveNewStatus job.status steps with
    | none => simp [applyAutoFinalize, h]
    | some ns =>
      cases hs : job.started_at <;> cases ns <;> simp [applyAutoFinalize, h, hs]

/-- C10: the step's started_at is written exactly in these cases — a
running update without error_message writes it; a running update carrying
an error_message does not; every terminal update writes it with the same
instant as completed_at regardless of any earlier value; a pending update
writes neither timestamp. -/
theorem c10_started_at_exact (step : StepRow) (em : Option String) (now : Nat) :
    (applyStepUpdate step StepStatus.running em now).started_at =
      (if strFalsy em = true then some now else step.started_at) ∧
    (applyStepUpdate step StepStatus.running em now).completed_at = step.completed_at ∧
    (applyStepUpdate step StepStatus.completed em now).started_at = some now ∧
    (applyStepUpdate step StepStatus.completed em now).completed_at = some now ∧
    (applyStepUpdate step StepStatus.failed em now).started_at = some now ∧
    (applyStepUpdate step StepStatus.failed em now).completed_at = some now ∧
    (applyStepUpdate step StepStatus.skipped em now).started_at = some now ∧
    (applyStepUpdate step StepStatus.skipped em now).completed_at = some now ∧
    (applyStepUpdate step StepStatus.pending em now).started_at = step.started_at ∧
    (applyStepUpdate step StepStatus.pending em now).completed_at = step.completed_at := by
  by_cases hf : strFalsy em = true <;> simp [applyStepUpdate, hf]

/-- C6: create-job inserts one pending job plus one pending step row per
supplied step definition; a steps-insert failure deletes the freshly
inserted job again (compensating delete) and yields 500; a missing
workflow_name or a missing/empty step list yields 400 with nothing
inserted. -/
theorem c6_create_job :
    (∀ (db : Db) (userId : String) (req : CreateJobRequest) (newJobId : Nat) (jOk sOk : Bool),
      (wfNameFalsy req.workflow_name || stepsFalsy req.steps) = true →
      createJob db userId req newJobId jOk sOk = (db, 400)) ∧
    (∀ (db : Db) (userId : String) (req : CreateJobRequest) (newJobId : Nat),
      (wfNameFalsy req.workflow_name || stepsFalsy req.steps) = false →
      (∀ j ∈ db.jobs, j.id ≠ newJobId) →
      createJob db userId req newJobId true false = (db, 500)) ∧
    (∀ (db : Db) (userId : String) (req : CreateJobRequest) (newJobId : Nat),
      (wfNameFalsy req.workflow_name || stepsFalsy req.steps) = false →
      createJob db userId req newJobId true true =
        ({ jobs := db.jobs ++ [⟨newJobId, userId, req.workflow_name.getD "", JobStatus.pending⟩],
           job_steps := db.job_steps ++ (req.steps.getD []).map (stepRowOf newJobId) }, 200) ∧
      (∀ r ∈ (req.steps.getD []).map (stepRowOf newJobId), r.status = StepStatus.pending) ∧
      ((req.steps.getD []).map (stepRowOf newJobId)).length = (req.steps.getD []).length) := by
  refine ⟨?_, ?_, ?_⟩
  · intro db userId req newJobId jOk sOk hval
    simp [createJob, hval]
  · intro db userId req newJobId hval hfresh
    have h1 : List.filter (fun j => !decide (j.id = newJobId)) db.jobs = db.jobs := by
      rw [List.filter_eq_self]
      intro a ha
      simpa using hfresh a ha
    simp [createJob, hval, h1]
  · intro db userId req newJobId hval
    refine ⟨by simp [createJob, hval], ?_, by simp⟩
    intro r hr
    rcases List.mem_map.mp hr with ⟨s, _, rfl⟩
    rfl

/-- Witness for C6 at concrete requests: an invalid request is rejected
without writes, a steps-insert failure rolls the job back, and a successful
request inserts the pending job and its pending steps. -/
theorem c6_witness :
    createJob ⟨[], []⟩ "u" ⟨none, some [⟨"a", "t", 1⟩]⟩ 5 true true = (⟨[], []⟩, 400) ∧
    createJob ⟨[], []⟩ "u" ⟨some "wf", some [⟨"a", "t", 1⟩]⟩ 5 true false = (⟨[], []⟩, 500) ∧
    createJob ⟨[], []⟩ "u" ⟨some "wf", some [⟨"a", "t", 1⟩]⟩ 5 true true =
      (⟨[⟨5, "u", "wf", JobStatus.pending⟩], [⟨5, "a", "t", 1, StepStatus.pending⟩]⟩, 200) :=
  ⟨c6_create_job.1 ⟨[], []⟩ "u" ⟨none, some [⟨"a", "t", 1⟩]⟩ 5 true true (by decide),
   c6_create_job.2.1 ⟨[], []⟩ "u" ⟨some "wf", some [⟨"a", "t", 1⟩]⟩ 5 (by decide)
     (by intro j hj; simp at hj),
   (c6_create_job.2.2 ⟨[], []⟩ "u" ⟨some "wf", some [⟨"a", "t", 1⟩]⟩ 5 (by decide)).1⟩

/-- C8 counterexample: the delay does not double on each successive
failure — after the second failure the code still waits 1000ms where the
claimed schedule would wait 2000ms (doubling only starts once the failure
count exceeds maxFailuresBeforeBackoff = 3). -/
theorem c8_counterexample :
    backoffMs 2 3 = 1000 ∧ claimedBackoffMs 2 = 2000 ∧
    backoffMs 2 3 ≠ claimedBackoffMs 2 := by decide

/-- C8 (amended): the reconnect delay is 1000·2^max(0, failures − 3)
capped at 30000ms — flat at 1000ms for the first three failures, doubling
on each successive failure after the third (subject to the cap), saturated
at 30000ms from the eighth failure on — and a successful reconnect (all
sources subscribed, not aborted) resets the failure count to zero. -/
theorem c8_backoff_amended :
    (∀ f, f ≤ 3 → backoffMs f 3 = 1000) ∧
    (∀ f, 3 ≤ f → backoffMs (f + 1) 3 = min 30000 (2 * backoffMs f 3)) ∧
    (∀ f, backoffMs f 3 ≤ 30000) ∧
    (∀ f, 8 ≤ f → backoffMs f 3 = 30000) ∧
    (∀ (captured : Nat) (st : RtState) (sourcesCount subscribedCount : Nat),
      st.isMounted = true → st.generation = captured → subscribedCount + 1 = sourcesCount →
      (channelStatusCallback captured st sourcesCount subscribedCount false none
        SubStatus.SUBSCRIBED).1.failures = 0) := by
  refine ⟨?_, ?_, ?_, ?_, ?_⟩
  · intro f hf
    simp [backoffMs, Nat.sub_eq_zero_of_le hf]
  · intro f hf
    have h1 : f + 1 - 3 = (f - 3) + 1 := by omega
    have h2 : 1 ≤ 2 ^ (f - 3) := Nat.one_le_two_pow
    unfold backoffMs
    rw [h1, pow_succ]
    generalize 2 ^ (f - 3) = y at h2 ⊢
    omega
  · intro f
    exact Nat.min_le_left _ _
  · intro f hf
    have h1 : (32 : Nat) ≤ 2 ^ (f - 3) := by
      calc (32 : Nat) = 2 ^ 5 := by norm_num
        _ ≤ 2 ^ (f - 3) := Nat.pow_le_pow_right (by norm_num) (by omega)
    have h2 : (30000 : Nat) ≤ 1000 * 2 ^ (f - 3) := by
      calc (30000 : Nat) ≤ 1000 * 32 := by norm_num
        _ ≤ 1000 * 2 ^ (f - 3) := Nat.mul_le_mul_left _ h1
    exact Nat.min_eq_left h2
  · intro captured st sourcesCount subscribedCount hm hg hc
    simp [channelStatusCallback, hm, hg, hc]

/-- Witness for the amended C8 at concrete failure counts and a concrete
successful subscription. -/
theorem c8_witness :
    backoffMs 2 3 = 1000 ∧
    backoffMs 5 3 = min 30000 (2 * backoffMs 4 3) ∧
    backoffMs 9 3 = 30000 ∧
    (channelStatusCallback 1 ⟨true, 1, ConnectionMode.initializing, none, 5, none, true⟩ 2 1
      false none SubStatus.SUBSCRIBED).1.failures = 0 :=
  ⟨c8_backoff_amended.1 2 (by decide),
   c8_backoff_amended.2.1 4 (by decide),
   c8_backoff_amended.2.2.2.1 9 (by decide),
   c8_backoff_amended.2.2.2.2 1 ⟨true, 1, ConnectionMode.initializing, none, 5, none, true⟩ 2 1
     rfl rfl rfl⟩

/-- C9: a callback captured with an earlier generation than the current one
is silently dropped — the event callback does not invoke the consumer's
onEvent and leaves the state untouched, and the status callback leaves the
state and the subscription locals untouched. -/
theorem c9_stale_generation_dropped (captured : Nat) (st : RtState) (now : Nat)
    (sourcesCount subscribedCount : Nat) (aborted : Bool) (err : Option String)
    (status : SubStatus) (h : captured < st.generation) :
    channelEventCallback captured st now = (st, false) ∧
    channelStatusCallback captured st sourcesCount subscribedCount aborted err status =
      (st, subscribedCount, aborted) := by
  have hne : st.generation ≠ captured := by omega
  constructor
  · by_cases hm : st.isMounted = false <;> simp [channelEventCallback, hm, hne]
  · by_cases hm : st.isMounted = false <;> simp [channelStatusCallback, hm, hne]

/-- Witness for C9: after a resubscription bumps the generation, a callback
still tagged with the old generation has no effect. -/
theorem c9_witness :
    channelEventCallback 1 (bumpGeneration ⟨true, 1, ConnectionMode.connected, none, 4, none, false⟩)
      99 = (bumpGeneration ⟨true, 1, ConnectionMode.connected, none, 4, none, false⟩, false) ∧
    channelStatusCallback 1
      (bumpGeneration ⟨true, 1, ConnectionMode.connected, none, 4, none, false⟩) 3 0 false none
      SubStatus.CLOSED =
      (bumpGeneration ⟨true, 1, ConnectionMode.connected, none, 4, none, false⟩, 0, false) :=
  ⟨(c9_stale_generation_dropped 1 _ 99 3 0 false none SubStatus.CLOSED (by decide)).1,
   (c9_stale_generation_dropped 1 _ 99 3 0 false none SubStatus.CLOSED (by decide)).2⟩

/-- When the job_steps branch reaches the dedup check, all its early-return
guards have passed: the status actually changed, the new status is
interesting, the event type was UPDATE or undefined, the fetched job exists,
is owned by the user, and has not already failed. -/
lemma stepToastPlan_guards {userId : String} {evType : Option String} {step : JobStep}
    {oldStatus : Option StepStatus} {fetched : Option JobWithSteps} {t : Option ToastCall}
    (hp : stepToastPlan userId evType step oldStatus fetched = some t) :
    oldStatus ≠ some step.status ∧
    (step.status = StepStatus.running ∨ step.status = StepStatus.completed ∨
      step.status = StepStatus.failed) ∧
    (evType = some "UPDATE" ∨ evType = none) ∧
    ∃ jws, fetched = some jws ∧ jws.user_id = userId ∧ jws.status ≠ JobStatus.failed := by
  by_cases hg : oldStatus ≠ some step.status ∧
      (step.status = StepStatus.running ∨ step.status = StepStatus.completed ∨
        step.status = StepStatus.failed) ∧
      (evType = some "UPDATE" ∨ evType = none)
  · cases fetched with
    | none => rw [stepToastPlan.eq_def, if_pos hg] at hp; exact absurd hp (by simp)
    | some jws =>
      by_cases hu : jws.user_id = userId
      · by_cases hf : jws.status = JobStatus.failed
        · rw [stepToastPlan.eq_def, if_pos hg] at hp
          simp only [hu, if_true, hf, if_pos rfl] at hp
          exact absurd hp (by simp)
        · exact ⟨hg.1, hg.2.1, hg.2.2, jws, rfl, hu, hf⟩
      · rw [stepToastPlan.eq_def, if_pos hg] at hp
        simp only [hu] at hp
        exact absurd hp (by simp)
  · rw [stepToastPlan.eq_def, if_neg hg] at hp
    exact absurd hp (by simp)

/-- C7: a step toast is emitted only if the step's status actually changed,
the new status is running, completed or failed, and the owning job — as
refetched when the event is processed — has not already failed. -/
theorem c7_step_toast_guards (st : NotifState) (userId : String) (evType : Option String)
    (step : JobStep) (oldStatus : Option StepStatus) (fetched : Option JobWithSteps)
    (h : (handleStepEvent st userId evType step oldStatus fetched).2 ≠ none) :
    oldStatus ≠ some step.status ∧
    (step.status = StepStatus.running ∨ step.status = StepStatus.completed ∨
      step.status = StepStatus.failed) ∧
    ∀ jws, fetched = some jws → jws.status ≠ JobStatus.failed := by
  cases hp : stepToastPlan userId evType step oldStatus fetched with
  | none => simp [handleStepEvent, hp] at h
  | some t =>
    obtain ⟨h1, h2, _, jws, hjws, _, hfail⟩ := stepToastPlan_guards hp
    refine ⟨h1, h2, ?_⟩
    intro j hj
    rw [hjws] at hj
    cases hj
    exact hfail

/-- Witness for C7 at a concrete emitted step toast. -/
theorem c7_witness :
    some StepStatus.pending ≠
      some (⟨"st1", "j1", "Download", 1, StepStatus.running, none, none⟩ : JobStep).status ∧
    ((⟨"st1", "j1", "Download", 1, StepStatus.running, none, none⟩ : JobStep).status =
        StepStatus.running ∨
      (⟨"st1", "j1", "Download", 1, StepStatus.running, none, none⟩ : JobStep).status =
        StepStatus.completed ∨
      (⟨"st1", "j1", "Download", 1, StepStatus.running, none, none⟩ : JobStep).status =
        StepStatus.failed) ∧
    ∀ jws, (some (⟨"j1", "u", JobStatus.running, "wf",
        [⟨"st1", "j1", "Download", 1, StepStatus.running, none, none⟩]⟩ : JobWithSteps) : Option JobWithSteps) = some jws →
      jws.status ≠ JobStatus.failed :=
  c7_step_toast_guards ⟨[], []⟩ "u" (some "UPDATE")
    ⟨"st1", "j1", "Download", 1, StepStatus.running, none, none⟩ (some StepStatus.pending)
    (some ⟨"j1", "u", JobStatus.running, "wf",
      [⟨"st1", "j1", "Download", 1, StepStatus.running, none, none⟩]⟩)
    (by decide)

/-- C3 counterexample: the same job transition (running to failed for job
"j") delivered twice — once live, once as a synthetic poll-diff event, both
carrying the old and new status — emits the job-failed toast twice: the
`statusActuallyChanged` disjunct overrides the last-notified-status map. -/
theorem c3_counterexample :
    (handleJobUpdate ⟨[], []⟩ "j" JobStatus.failed (some JobStatus.running)).2 = true ∧
    (handleJobUpdate (handleJobUpdate ⟨[], []⟩ "j" JobStatus.failed
      (some JobStatus.running)).1 "j" JobStatus.failed (some JobStatus.running)).2 = true := by
  constructor <;> rfl

/-- C3 (amended): step events are deduplicated by the (job_id, step_id, new
status) key — a second delivery of the same step transition emits nothing —
while for job events the last-notified-status map suppresses a duplicate
only when the duplicate delivery itself reports no status change (its old
status equals its new status); a duplicate that repeats the old-to-new pair
re-notifies. -/
theorem c3_dedup_amended :
    (∀ (st : NotifState) (u₁ u₂ : String) (e₁ e₂ : Option String) (s₁ s₂ : JobStep)
       (o₁ o₂ : Option StepStatus) (f₁ f₂ : Option JobWithSteps),
      s₁.job_id = s₂.job_id → s₁.id = s₂.id → s₁.status = s₂.status →
      (handleStepEvent st u₁ e₁ s₁ o₁ f₁).2 ≠ none →
      (handleStepEvent (handleStepEvent st u₁ e₁ s₁ o₁ f₁).1 u₂ e₂ s₂ o₂ f₂).2 = none) ∧
    (∀ (st : NotifState) (jobId : String) (status : JobStatus) (oldStatus : Option JobStatus),
      (handleJobUpdate (handleJobUpdate st jobId status oldStatus).1 jobId status
        (some status)).2 = false) := by
  constructor
  · intro st u₁ u₂ e₁ e₂ s₁ s₂ o₁ o₂ f₁ f₂ hjob hid hstat h₁
    have hkey : stepKey s₂ = stepKey s₁ := by
      unfold stepKey
      rw [hjob, hid, hstat]
    cases hp₁ : stepToastPlan u₁ e₁ s₁ o₁ f₁ with
    | none => simp [handleStepEvent, hp₁] at h₁
    | some t₁ =>
      by_cases hm : stepKey s₁ ∈ st.lastStepNotified
      · simp [handleStepEvent, hp₁, hm] at h₁
      · have hst₁ : (handleStepEvent st u₁ e₁ s₁ o₁ f₁).1 =
            { st with lastStepNotified := stepKey s₁ :: st.lastStepNotified } := by
          simp [handleStepEvent, hp₁, hm]
        rw [hst₁]
        cases hp₂ : stepToastPlan u₂ e₂ s₂ o₂ f₂ with
        | none => simp [handleStepEvent, hp₂]
        | some t₂ => simp [handleStepEvent, hp₂, hkey]
  · intro st jobId status oldStatus
    by_cases hg : ¬(lastStatusOf st jobId = some status) ∨ oldStatus ≠ some status
    · have hst : (handleJobUpdate st jobId status oldStatus).1 =
          setLastStatus st jobId status := by
        simp [handleJobUpdate, hg]
      have hlook : lastStatusOf (setLastStatus st jobId status) jobId = some status := by
        simp [lastStatusOf, setLastStatus, List.find?]
      rw [hst]
      simp [handleJobUpdate, hlook]
    · push_neg at hg
      have hst : (handleJobUpdate st jobId status oldStatus).1 = st := by
        simp [handleJobUpdate, hg.1, hg.2]
      rw [hst]
      simp [handleJobUpdate, hg.1]

/-- Witness for the amended C3: a concrete duplicated step transition is
emitted once and suppressed on redelivery, and a duplicated job event whose
second delivery reports no change is suppressed. -/
theorem c3_witness :
    (handleStepEvent (handleStepEvent ⟨[], []⟩ "u" (some "UPDATE")
        ⟨"st1", "j1", "Download", 1, StepStatus.running, none, none⟩ (some StepStatus.pending)
        (some ⟨"j1", "u", JobStatus.running, "wf",
          [⟨"st1", "j1", "Download", 1, StepStatus.running, none, none⟩]⟩)).1
      "u" none ⟨"st1", "j1", "Download", 1, StepStatus.running, none, none⟩
      (some StepStatus.pending)
      (some ⟨"j1", "u", JobStatus.running, "wf",
        [⟨"st1", "j1", "Download", 1, StepStatus.running, none, none⟩]⟩)).2 = none ∧
    (handleJobUpdate (handleJobUpdate ⟨[], []⟩ "x" JobStatus.completed none).1 "x"
      JobStatus.completed (some JobStatus.completed)).2 = false :=
  ⟨c3_dedup_amended.1 ⟨[], []⟩ "u" "u" (some "UPDATE") none _ _ (some StepStatus.pending)
      (some StepStatus.pending) _ _ rfl rfl rfl (by decide),
   c3_dedup_amended.2 ⟨[], []⟩ "x" JobStatus.completed none⟩

/-! ### Lemmas about minByOrder and maxCompletedOrder -/

/-- The stable-sort head of a nonempty list exists. -/
lemma minByOrder_ne_none {s : JobStep} {rest : List JobStep} :
    minByOrder (s :: rest) ≠ none := by
  simp only [minByOrder]
  split
  · simp
  · split <;> simp

/-- The stable-sort head is an element of the list. -/
lemma minByOrder_mem : ∀ {l : List JobStep} {m : JobStep}, minByOrder l = some m → m ∈ l := by
  intro l
  induction l with
  | nil => intro m h; simp [minByOrder] at h
  | cons s rest ih =>
    intro m h
    simp only [minByOrder] at h
    split at h
    · cases h
      exact List.mem_cons_self _ _
    · rename_i m' heq
      split at h
      · cases h
        exact List.mem_cons_of_mem _ (ih heq)
      · cases h
        exact List.mem_cons_self _ _

/-- The stable-sort head has the minimal step_order of the list. -/
lemma minByOrder_le : ∀ {l : List JobStep} {m : JobStep}, minByOrder l = some m →
    ∀ x ∈ l, m.step_order ≤ x.step_order := by
  intro l
  induction l with
  | nil => intro m h; simp [minByOrder] at h
  | cons s rest ih =>
    intro m h x hx
    simp only [minByOrder] at h
    split at h
    · rename_i heq
      cases h
      have hrest : rest = [] := by
        cases rest with
        | nil => rfl
        | cons a as => exact absurd heq minByOrder_ne_none
      subst hrest
      rcases List.mem_singleton.mp hx with rfl
      exact le_refl _
    · rename_i m' heq
      split at h
      · rename_i hlt
        cases h
        rcases List.mem_cons.mp hx with rfl | hx'
        · exact le_of_lt hlt
        · exact ih heq x hx'
      · rename_i hlt
        cases h
        rcases List.mem_cons.mp hx with rfl | hx'
        · exact le_refl _
        · exact le_trans (le_of_not_lt hlt) (ih heq x hx')

/-- A list containing some element has a stable-sort head, which is a
member of minimal step_order. -/
lemma minByOrder_exists_of_mem {l : List JobStep} {x : JobStep} (hx : x ∈ l) :
    ∃ m, minByOrder l = some m ∧ m ∈ l ∧ ∀ y ∈ l, m.step_order ≤ y.step_order := by
  cases l with
  | nil => simp at hx
  | cons s rest =>
    cases h : minByOrder (s :: rest) with
    | none => exact absurd h minByOrder_ne_none
    | some m => exact ⟨m, rfl, minByOrder_mem h, minByOrder_le h⟩

/-- The seed of a left max-fold bounds it from below. -/
lemma le_foldl_max : ∀ (l : List Int) (a : Int), a ≤ l.foldl max a := by
  intro l
  induction l with
  | nil => intro a; exact le_refl a
  | cons x xs ih => intro a; exact le_trans (le_max_left a x) (ih (max a x))

/-- Every member of a list bounds its left max-fold from below. -/
lemma mem_le_foldl_max : ∀ (l : List Int) (a x : Int), x ∈ l → x ≤ l.foldl max a := by
  intro l
  induction l with
  | nil => intro a x hx; simp at hx
  | cons y ys ih =>
    intro a x hx
    rcases List.mem_cons.mp hx with rfl | hx'
    · exact le_trans (le_max_right a x) (le_foldl_max ys (max a x))
    · exact ih (max a y) x hx'

/-- A left max-fold is either its seed or one of the list members. -/
lemma foldl_max_mem_or : ∀ (l : List Int) (a : Int), l.foldl max a = a ∨ l.foldl max a ∈ l := by
  intro l
  induction l with
  | nil => intro a; exact Or.inl rfl
  | cons y ys ih =>
    intro a
    rcases ih (max a y) with h | h
    · rcases max_choice a y with hm | hm
      · exact Or.inl (by rw [List.foldl_cons, h, hm])
      · exact Or.inr (by rw [List.foldl_cons, h, hm]; exact List.mem_cons_self _ _)
    · exact Or.inr (List.mem_cons_of_mem _ h)

/-- Every completed or skipped step's order is bounded by maxCompletedOrder. -/
lemma maxCompletedOrder_ge {steps : List JobStep} :
    ∀ s ∈ steps, (s.status = StepStatus.completed ∨ s.status = StepStatus.skipped) →
      s.step_order ≤ maxCompletedOrder steps := by
  intro s hs hstat
  have hmem : s.step_order ∈ (steps.filter fun x =>
      x.status = StepStatus.completed ∨ x.status = StepStatus.skipped).map
      (fun s => s.step_order) :=
    List.mem_map.mpr ⟨s, List.mem_filter.mpr ⟨hs, by simpa using hstat⟩, rfl⟩
  unfold maxCompletedOrder
  cases hL : (steps.filter fun x =>
      x.status = StepStatus.completed ∨ x.status = StepStatus.skipped).map
      (fun s => s.step_order) with
  | nil => rw [hL] at hmem; simp at hmem
  | cons o os =>
    rw [hL] at hmem
    rcases List.mem_cons.mp hmem with heq | hmem'
    · rw [heq]; exact le_foldl_max os o
    · exact mem_le_foldl_max os o _ hmem'

/-- maxCompletedOrder is zero or attained by a completed or skipped step. -/
lemma maxCompletedOrder_attained (steps : List JobStep) :
    maxCompletedOrder steps = 0 ∨
    ∃ s ∈ steps, (s.status = StepStatus.completed ∨ s.status = StepStatus.skipped) ∧
      s.step_order = maxCompletedOrder steps := by
  unfold maxCompletedOrder
  cases hL : (steps.filter fun x =>
      x.status = StepStatus.completed ∨ x.status = StepStatus.skipped).map
      (fun s => s.step_order) with
  | nil => exact Or.inl rfl
  | cons o os =>
    right
    have hval : os.foldl max o ∈ o :: os := by
      rcases foldl_max_mem_or os o with h | h
      · rw [h]; exact List.mem_cons_self _ _
      · exact List.mem_cons_of_mem _ h
    rw [← hL] at hval
    rcases List.mem_map.mp hval with ⟨s, hsf, hso⟩
    rcases List.mem_filter.mp hsf with ⟨hs, hstat⟩
    exact ⟨s, hs, by simpa using hstat, hso⟩

/-- C4 counterexample: with steps pending(order 1), failed(order 2),
pending(order 3) and nothing running, the claim's terminal-based threshold
(which counts the failed step, giving 2) selects the order-3 pending step,
but the code counts only completed/skipped steps (threshold 0) and selects
the order-1 pending step. -/
theorem c4_counterexample :
    nextStep [⟨"s1", "j", "a", 1, StepStatus.pending, none, none⟩,
        ⟨"s2", "j", "b", 2, StepStatus.failed, none, none⟩,
        ⟨"s3", "j", "c", 3, StepStatus.pending, none, none⟩] =
      some ⟨"s1", "j", "a", 1, StepStatus.pending, none, none⟩ ∧
    nextStepClaimed [⟨"s1", "j", "a", 1, StepStatus.pending, none, none⟩,
        ⟨"s2", "j", "b", 2, StepStatus.failed, none, none⟩,
        ⟨"s3", "j", "c", 3, StepStatus.pending, none, none⟩] =
      some ⟨"s3", "j", "c", 3, StepStatus.pending, none, none⟩ ∧
    nextStep [⟨"s1", "j", "a", 1, StepStatus.pending, none, none⟩,
        ⟨"s2", "j", "b", 2, StepStatus.failed, none, none⟩,
        ⟨"s3", "j", "c", 3, StepStatus.pending, none, none⟩] ≠
      nextStepClaimed [⟨"s1", "j", "a", 1, StepStatus.pending, none, none⟩,
        ⟨"s2", "j", "b", 2, StepStatus.failed, none, none⟩,
        ⟨"s3", "j", "c", 3, StepStatus.pending, none, none⟩] := by
  refine ⟨rfl, rfl, by decide⟩

/-- C4 (amended): the inferred next step is the running step of lowest
step_order; if none is running, the pending step of lowest step_order
strictly above the maximum step_order among steps with status completed or
skipped — failed steps do not raise the threshold — (zero when there are
none); and failing that, the lowest-order running-or-pending step, with no
inference when no step is running or pending. -/
theorem c4_next_step_amended (steps : List JobStep) :
    ((∃ s ∈ steps, s.status = StepStatus.running) →
      ∃ r, nextStep steps = some r ∧ r ∈ steps ∧ r.status = StepStatus.running ∧
        ∀ t ∈ steps, t.status = StepStatus.running → r.step_order ≤ t.step_order) ∧
    ((∀ s ∈ steps, s.status ≠ StepStatus.running) →
      (∃ s ∈ steps, s.status = StepStatus.pending ∧
        maxCompletedOrder steps < s.step_order) →
      ∃ r, nextStep steps = some r ∧ r ∈ steps ∧ r.status = StepStatus.pending ∧
        maxCompletedOrder steps < r.step_order ∧
        ∀ t ∈ steps, t.status = StepStatus.pending →
          maxCompletedOrder steps < t.step_order → r.step_order ≤ t.step_order) ∧
    ((∀ s ∈ steps, s.status ≠ StepStatus.running) →
      (∀ s ∈ steps, s.status = StepStatus.pending →
        s.step_order ≤ maxCompletedOrder steps) →
      (∃ s ∈ steps, s.status = StepStatus.running ∨ s.status = StepStatus.pending) →
      ∃ r, nextStep steps = some r ∧ r ∈ steps ∧
        (r.status = StepStatus.running ∨ r.status = StepStatus.pending) ∧
        ∀ t ∈ steps, (t.status = StepStatus.running ∨ t.status = StepStatus.pending) →
          r.step_order ≤ t.step_order) ∧
    ((∀ s ∈ steps, s.status ≠ StepStatus.running ∧ s.status ≠ StepStatus.pending) →
      nextStep steps = none) ∧
    (∀ s ∈ steps, (s.status = StepStatus.completed ∨ s.status = StepStatus.skipped) →
      s.step_order ≤ maxCompletedOrder steps) ∧
    (maxCompletedOrder steps = 0 ∨
      ∃ s ∈ steps, (s.status = StepStatus.completed ∨ s.status = StepStatus.skipped) ∧
        s.step_order = maxCompletedOrder steps) := by
  refine ⟨?_, ?_, ?_, ?_, maxCompletedOrder_ge, maxCompletedOrder_attained steps⟩
  · intro h1
    obtain ⟨s, hs, hstat⟩ := h1
    have hmem : s ∈ steps.filter (fun s => s.status = StepStatus.running) :=
      List.mem_filter.mpr ⟨hs, by simpa using hstat⟩
    obtain ⟨m, hm, hmemf, hmin⟩ := minByOrder_exists_of_mem hmem
    have hmf := List.mem_filter.mp hmemf
    refine ⟨m, ?_, hmf.1, by simpa using hmf.2, ?_⟩
    · simp only [nextStep, hm]
    · intro t ht htstat
      exact hmin t (List.mem_filter.mpr ⟨ht, by simpa using htstat⟩)
  · intro h1 h2
    have hF1 : steps.filter (fun s => s.status = StepStatus.running) = [] := by
      rw [List.filter_eq_nil_iff]
      intro a ha
      simpa using h1 a ha
    obtain ⟨s, hs, hpend, hgt⟩ := h2
    have hmem : s ∈ steps.filter (fun s =>
        s.status = StepStatus.pending ∧ maxCompletedOrder steps < s.step_order) :=
      List.mem_filter.mpr ⟨hs, by simp [hpend, hgt]⟩
    obtain ⟨m, hm, hmemf, hmin⟩ := minByOrder_exists_of_mem hmem
    have hmf := List.mem_filter.mp hmemf
    have hprops : m.status = StepStatus.pending ∧ maxCompletedOrder steps < m.step_order := by
      simpa using hmf.2
    refine ⟨m, ?_, hmf.1, hprops.1, hprops.2, ?_⟩
    · simp only [nextStep, hF1, minByOrder, hm]
    · intro t ht htp htgt
      exact hmin t (List.mem_filter.mpr ⟨ht, by simp [htp, htgt]⟩)
  · intro h1 h2 h3
    have hF1 : steps.filter (fun s => s.status = StepStatus.running) = [] := by
      rw [List.filter_eq_nil_iff]
      intro a ha
      simpa using h1 a ha
    have hF2 : steps.filter (fun s =>
        s.status = StepStatus.pending ∧ maxCompletedOrder steps < s.step_order) = [] := by
      rw [List.filter_eq_nil_iff]
      intro a ha
      simp only [decide_eq_true_eq, not_and]
      intro hpa
      exact not_lt.mpr (h2 a ha hpa)
    obtain ⟨s, hs, hstat⟩ := h3
    have hmem : s ∈ steps.filter (fun s =>
        s.status = StepStatus.running ∨ s.status = StepStatus.pending) :=
      List.mem_filter.mpr ⟨hs, by simpa using hstat⟩
    obtain ⟨m, hm, hmemf, hmin⟩ := minByOrder_exists_of_mem hmem
    have hmf := List.mem_filter.mp hmemf
    refine ⟨m, ?_, hmf.1, by simpa using hmf.2, ?_⟩
    · simp only [nextStep, hF1, hF2, minByOrder, hm]
    · intro t ht htstat
      exact hmin t (List.mem_filter.mpr ⟨ht, by simpa using htstat⟩)
  · intro h
    have hF1 : steps.filter (fun s => s.status = StepStatus.running) = [] := by
      rw [List.filter_eq_nil_iff]
      intro a ha
      simpa using (h a ha).1
    have hF2 : steps.filter (fun s =>
        s.status = StepStatus.pending ∧ maxCompletedOrder steps < s.step_order) = [] := by
      rw [List.filter_eq_nil_iff]
      intro a ha
      simp only [decide_eq_true_eq, not_and]
      intro hpa
      exact absurd hpa (h a ha).2
    have hF3 : steps.filter (fun s =>
        s.status = StepStatus.running ∨ s.status = StepStatus.pending) = [] := by
      rw [List.filter_eq_nil_iff]
      intro a ha
      simp only [decide_eq_true_eq]
      rintro (hr | hp)
      · exact (h a ha).1 hr
      · exact (h a ha).2 hp
    simp only [nextStep, hF1, hF2, hF3, minByOrder]

/-- Witness for the amended C4: a single fully completed step yields no
next-step inference. -/
theorem c4_witness :
    nextStep [⟨"a", "j", "n", 1, StepStatus.completed, none, none⟩] = none :=
  (c4_next_step_amended _).2.2.2.1 (by decide)
